import Mathlib

/-!
Verification of the KrinoSeq distribution-driven filtering engine.

This file is a shallow embedding, in Lean 4, of the length-filtering core of
the KrinoSeq repository (src/backend/core/statistics.py,
src/backend/filters/basic_filters.py, src/backend/filters/n50_optimization.py,
src/backend/filters/distribution_analysis.py, src/backend/filters/__init__.py),
together with theorems settling the frozen claims C1 to C10.

Modelling conventions:
* Sequence lengths are integers; the Python float values computed from them
  (means, quartiles, N50 values, thresholds) are exact rationals, so floats
  are modelled by the corresponding exact values in the rationals.
* A Python dict mapping sequence ids to lengths is modelled as an association
  list in insertion order.
* Fallible Python code (int() applied to float infinity raises OverflowError,
  unknown method names raise ValueError) is modelled with Except.
* External numerical library routines whose results are irrational or are
  produced by iterative fitting (sklearn GaussianMixture, scipy skew and
  kurtosis, numpy std, the transcendental tie-break scans and the inverse
  transform on the box-cox and log branches) are modelled as an explicit
  oracle parameter that the source of the repository merely calls; every
  branch and computation written in the repository itself is embedded
  directly.
* The transcendental mathematics behind the transform round-trip and the
  mixture density is stated relationally, as Prop-valued definitions over
  the real numbers.
-/

set_option maxRecDepth 40000
set_option maxHeartbeats 1600000

namespace KrinoSeq

/-! ## Python primitives -/

/-- Python int() applied to a (finite) float: truncation toward zero. -/
def pyTrunc (q : ℚ) : ℤ := if 0 ≤ q then ⌊q⌋ else ⌈q⌉

/-- Python round() applied to a (finite) float: round half to even. -/
def pyRound (q : ℚ) : ℤ :=
  let f := ⌊q⌋
  let r := q - (f : ℚ)
  if r < 1/2 then f
  else if 1/2 < r then f + 1
  else if f % 2 = 0 then f else f + 1

/-- Python range(a, b, s) for a positive step s, as a list of integers.
Python raises ValueError on a zero step; a nonpositive step yields []. -/
def pyRange (a b : ℤ) (s : ℤ) : List ℤ :=
  if s ≤ 0 then []
  else (List.range ((b - a + s - 1) / s).toNat).map (fun i => a + i * s)

/-- Python sorted(reverse=True): stable insertion of one element into a
descending list. -/
def insertDesc (x : ℤ) : List ℤ → List ℤ
  | [] => [x]
  | y :: ys => if x > y then x :: y :: ys else y :: insertDesc x ys

/-- Python sorted(lengths, reverse=True), as a stable insertion sort. -/
def sortDesc : List ℤ → List ℤ
  | [] => []
  | x :: xs => insertDesc x (sortDesc xs)

/-- Ascending insertion, used by the numpy percentile model. -/
def insertAsc (x : ℤ) : List ℤ → List ℤ
  | [] => [x]
  | y :: ys => if x < y then x :: y :: ys else y :: insertAsc x ys

/-- Ascending sort, used by the numpy percentile model. -/
def sortAsc : List ℤ → List ℤ
  | [] => []
  | x :: xs => insertAsc x (sortAsc xs)

/-- Python min() over a nonempty list (0 on the empty list, which the
sources always guard against). -/
def listMin : List ℤ → ℤ
  | [] => 0
  | x :: xs => xs.foldl min x

/-! ## Data model

A Python dict mapping sequence ids to lengths, in insertion order. -/

/-- An id-to-length mapping (Python dict), as an association list. -/
abbrev SeqDict := List (String × ℤ)

/-- list(seq_lengths.values()). -/
def values (seq : SeqDict) : List ℤ := seq.map Prod.snd

/-- The Python exceptions the filtering engine can raise. -/
inductive PyErr where
  /-- OverflowError from int(float('inf')). -/
  | overflow : PyErr
  /-- ValueError from an unknown filtering method name. -/
  | unsupportedMethod (method : String) : PyErr
  /-- IndexError from numpy percentile on an empty array. -/
  | numpyEmpty : PyErr
deriving DecidableEq

/-! ## src/backend/core/statistics.py -/

/-- The accumulation loop of calculate_n50: walk the descending-sorted
lengths keeping a running sum, and return the length at which the running
sum first reaches at least half of the total. Returns none when the loop
falls through (the Python for-loop ending without the early return). -/
def n50_go (total : ℚ) : List ℤ → ℚ → Option ℚ
  | [], _ => none
  | x :: xs, running =>
    if total / 2 ≤ running + (x : ℚ) then some (x : ℚ)
    else n50_go total xs (running + (x : ℚ))

/-- calculate_n50 (statistics.py lines 71-96). The Python function returns
a float; on integer lengths its value is exactly the integer length at the
stopping point, so the model returns that exact rational. -/
def calculate_n50 : List ℤ → ℚ
  | [] => 0
  | x :: xs =>
    let s := sortDesc (x :: xs)
    let total : ℚ := (s.sum : ℚ)
    match n50_go total s 0 with
    | some v => v
    | none => (s.getLastD 0 : ℚ)

/-- The accumulation loop of calculate_l50, enumerating from a starting
index (Python enumerate(sorted_lengths, 1) starts at 1). -/
def l50_go (total : ℚ) : List ℤ → ℚ → ℕ → Option ℕ
  | [], _, _ => none
  | x :: xs, running, i =>
    if total / 2 ≤ running + (x : ℚ) then some i
    else l50_go total xs (running + (x : ℚ)) (i + 1)

/-- calculate_l50 (statistics.py lines 99-123). -/
def calculate_l50 : List ℤ → ℕ
  | [] => 0
  | x :: xs =>
    let s := sortDesc (x :: xs)
    let total : ℚ := (s.sum : ℚ)
    match l50_go total s 0 1 with
    | some i => i
    | none => s.length

/-- numpy percentile with the default linear interpolation, on a nonempty
integer array: the exact rational value. numpy raises on an empty array;
all callers in the sources guard emptiness, and the model returns 0 there.
The out-of-range index fallbacks are unreachable for the percentiles
(25, 50, 75) the sources use. -/
def npPercentile (l : List ℤ) (q : ℚ) : ℚ :=
  match l with
  | [] => 0
  | _ :: _ =>
    let s := sortAsc l
    let pos : ℚ := ((s.length : ℚ) - 1) * q / 100
    let i : ℕ := ⌊pos⌋₊
    let frac : ℚ := pos - (i : ℚ)
    match s.get? i, s.get? (i + 1) with
    | some a, some b => (a : ℚ) + frac * ((b : ℚ) - (a : ℚ))
    | some a, none => (a : ℚ)
    | none, _ => 0

/-- numpy median, which agrees with the 50th percentile under linear
interpolation. -/
def npMedian (l : List ℤ) : ℚ := npPercentile l 50

/-- numpy mean of an integer array: the exact rational value. Unguarded
numpy mean of an empty array yields nan; the sources only use the value
when the input is nonempty. -/
def npMean (l : List ℤ) : ℚ := (l.sum : ℚ) / (l.length : ℚ)

/-- The running sum over the first i+1 entries of the descending-sorted
list reaches at least half of the total. -/
def halfReached (s : List ℤ) (i : ℕ) : Prop :=
  ((s.sum : ℚ)) / 2 ≤ (((s.take (i + 1)).sum : ℤ) : ℚ)

instance (s : List ℤ) (i : ℕ) : Decidable (halfReached s i) := by
  unfold halfReached; infer_instance

/-! ## src/backend/filters/basic_filters.py -/

/-- The per-id predicate of filter_by_length: keep an id when the minimum
bound is unset or the length is at least it, and the maximum bound is unset
or the length is at most it (both bounds inclusive). -/
def keepLen (minLength maxLength : Option ℤ) (v : ℤ) : Bool :=
  (match minLength with
   | Option.none => true
   | Option.some m => decide (m ≤ v)) &&
  (match maxLength with
   | Option.none => true
   | Option.some m => decide (v ≤ m))

/-- filter_by_length (basic_filters.py lines 10-30). -/
def filter_by_length (seq : SeqDict) (minLength maxLength : Option ℤ) : SeqDict :=
  seq.filter (fun p => keepLen minLength maxLength p.2)

/-- A threshold pair (lower, upper) where an absent upper value stands for
float('inf'), which the guard branches of the threshold helpers return. -/
abbrev Thresholds := ℚ × Option ℚ

/-- calculate_iqr_thresholds (basic_filters.py lines 33-53). Fewer than 4
points: (0, inf). Otherwise k-scaled IQR fences from the numpy quartiles,
the lower fence floored at 0. -/
def calculate_iqr_thresholds (lengths : List ℤ) (k : ℚ) : Thresholds :=
  if lengths.length < 4 then (0, Option.none)
  else
    let q1 := npPercentile lengths 25
    let q3 := npPercentile lengths 75
    let iqr := q3 - q1
    (max 0 (q1 - k * iqr), Option.some (q3 + k * iqr))

/-- filter_by_iqr (basic_filters.py lines 56-71). The thresholds are passed
through int() before filtering; int(float('inf')) raises OverflowError. -/
def filter_by_iqr (seq : SeqDict) (k : ℚ) : Except PyErr SeqDict :=
  match calculate_iqr_thresholds (values seq) k with
  | (_, Option.none) => Except.error PyErr.overflow
  | (lo, Option.some hi) =>
    Except.ok (filter_by_length seq (Option.some (pyTrunc lo)) (Option.some (pyTrunc hi)))

/-- calculate_zscore_thresholds (basic_filters.py lines 74-97). numpy std
is an irrational square root in general, so it enters as the oracle value
npStd; the guards and the fence arithmetic are the source's. Fewer than 2
points: (0, inf). A zero standard deviation: (mean, mean). -/
def calculate_zscore_thresholds (npStd : List ℤ → ℚ) (lengths : List ℤ)
    (zThreshold : ℚ) : Thresholds :=
  if lengths.length < 2 then (0, Option.none)
  else
    let mean := npMean lengths
    let std := npStd lengths
    if std = 0 then (mean, Option.some mean)
    else (max 0 (mean - zThreshold * std), Option.some (mean + zThreshold * std))

/-- filter_by_zscore (basic_filters.py lines 100-115). -/
def filter_by_zscore (npStd : List ℤ → ℚ) (seq : SeqDict) (zThreshold : ℚ) :
    Except PyErr SeqDict :=
  match calculate_zscore_thresholds npStd (values seq) zThreshold with
  | (_, Option.none) => Except.error PyErr.overflow
  | (lo, Option.some hi) =>
    Except.ok (filter_by_length seq (Option.some (pyTrunc lo)) (Option.some (pyTrunc hi)))

/-- adaptive_threshold_calculator (basic_filters.py lines 118-146).
Skewness and kurtosis are scipy library values on floats, entering as
oracle values; the branch structure and parameters are the source's. -/
def adaptive_threshold_calculator (npStd : List ℤ → ℚ) (skewKurt : List ℤ → ℚ × ℚ)
    (lengths : List ℤ) : Thresholds :=
  match lengths with
  | [] => (0, Option.none)
  | _ :: _ =>
    let sk := (skewKurt lengths).1
    let ku := (skewKurt lengths).2
    if 2 < |sk| then
      calculate_iqr_thresholds lengths (if 4 < |sk| then 2 else 3/2)
    else
      calculate_zscore_thresholds npStd lengths (if |ku| < 1 then 3 else 5/2)

/-- filter_by_adaptive_threshold (basic_filters.py lines 149-163). -/
def filter_by_adaptive_threshold (npStd : List ℤ → ℚ) (skewKurt : List ℤ → ℚ × ℚ)
    (seq : SeqDict) : Except PyErr SeqDict :=
  match adaptive_threshold_calculator npStd skewKurt (values seq) with
  | (_, Option.none) => Except.error PyErr.overflow
  | (lo, Option.some hi) =>
    Except.ok (filter_by_length seq (Option.some (pyTrunc lo)) (Option.some (pyTrunc hi)))

/-! ## src/backend/filters/n50_optimization.py -/

/-- simulate_min_length_filter (n50_optimization.py lines 10-21). -/
def simulate_min_length_filter (lengths : List ℤ) (minLength : ℤ) : List ℤ :=
  lengths.filter (fun l => minLength ≤ l)

/-- calculate_n50_after_filtering (n50_optimization.py lines 24-39). -/
def calculate_n50_after_filtering (lengths : List ℤ) (minLength : ℤ) : ℚ :=
  match simulate_min_length_filter lengths minLength with
  | [] => 0
  | x :: xs => calculate_n50 (x :: xs)

/-- The cutoff scan of find_optimal_n50_cutoff: fold over the candidate
cutoffs, replacing the best pair (cutoff, n50) only when the N50 after
filtering at the candidate is strictly greater than the best N50 so far. -/
def scan_cutoffs (lengths : List ℤ) : List ℤ → ℤ × ℚ → ℤ × ℚ
  | [], best => best
  | c :: cs, best =>
    let current := calculate_n50_after_filtering lengths c
    scan_cutoffs lengths cs (if best.2 < current then (c, current) else best)

/-- find_optimal_n50_cutoff (n50_optimization.py lines 42-79). Default
min cutoff max(1, min(lengths) // 10), default max cutoff int(median);
the scan starts from best pair (0, initial unfiltered N50). -/
def find_optimal_n50_cutoff (lengths : List ℤ) (minCutoff maxCutoff : Option ℤ)
    (step : ℤ) : ℤ × ℚ :=
  match lengths with
  | [] => (0, 0)
  | _ :: _ =>
    let mn := minCutoff.getD (max 1 (listMin lengths / 10))
    let mx := maxCutoff.getD (pyTrunc (npMedian lengths))
    scan_cutoffs lengths (pyRange mn (mx + 1) step) (0, calculate_n50 lengths)

/-! ## src/backend/filters/distribution_analysis.py -/

/-- One retained Gaussian mixture component, in transformed space
(weights, means and standard deviations are floats, modelled exactly). -/
structure Component where
  weight : ℚ
  mean : ℚ
  std : ℚ
deriving DecidableEq

/-- The transform_params dictionary attached to a fit: a tagged variant
over the type field. -/
inductive TransformParams where
  | none : TransformParams
  | log (offset : ℚ) : TransformParams
  | boxcox (lam offset : ℚ) : TransformParams
deriving DecidableEq

/-- The part of the detect_multimodality result that downstream code
reads. -/
structure MMResult where
  is_multimodal : Bool
  optimal_components : ℕ
  components : List Component
  transform_params : TransformParams
deriving DecidableEq

/-- The external numerical routines the sources call but do not define:
sklearn mixture fitting (together with the data transform and component
selection it is fed through), numpy std, scipy skewness and kurtosis, the
transcendental inverse transform branches, and the tie-break strategies
that scan Gaussian densities numerically. The embedding is parametric in
these; every guard, branch and arithmetic step written in the repository
itself is embedded directly. -/
structure Numerics where
  /-- detect_multimodality past its size guard: transform the data, fit
  GMMs, select the component count, drop weights below 0.01 and sort the
  survivors by mean (distribution_analysis.py lines 41-188), keyed by
  transform type and component method. -/
  gmm_fit : String → String → List ℤ → MMResult
  /-- numpy std of the lengths. -/
  np_std : List ℤ → ℚ
  /-- scipy skewness and kurtosis of the lengths. -/
  skewKurt : List ℤ → ℚ × ℚ
  /-- inverse_transform_value on the box-cox and log branches
  (transcendental; the identity branch for no transform is embedded
  directly in inverse_transform_q below). -/
  inv_val : TransformParams → ℚ → ℚ
  /-- The intersection, probability and valley tie-break strategies
  (distribution_analysis.py lines 315-359), which evaluate Gaussian
  densities in floating point. -/
  tie_break : String → Component → Component → ℚ

/-- The degraded result detect_multimodality returns below 50 points
(distribution_analysis.py lines 31-38): single component, not multimodal,
no components, no transform. -/
def insufficientDataResult : MMResult :=
  { is_multimodal := false
    optimal_components := 1
    components := []
    transform_params := TransformParams.none }

/-- detect_multimodality (distribution_analysis.py lines 12-188): below 50
points return the degraded single-component result without fitting,
otherwise run the external fitting pipeline. -/
def detect_multimodality (env : Numerics) (transformType componentMethod : String)
    (lengths : List ℤ) : MMResult :=
  if lengths.length < 50 then insufficientDataResult
  else env.gmm_fit transformType componentMethod lengths

/-- inverse_transform_value (distribution_analysis.py lines 548-574)
restricted as the sources use it on a rational value: the no-transform
branch returns the value unchanged; the box-cox and log branches are
transcendental and come from the oracle. -/
def inverse_transform_q (env : Numerics) (p : TransformParams) (v : ℚ) : ℚ :=
  match p with
  | TransformParams.none => v
  | _ => env.inv_val p v

/-- The per-pair cutoff computation of identify_natural_cutoffs
(distribution_analysis.py lines 310-363): midpoint is (mean1 + mean2) / 2;
intersection, probability and valley are numeric density scans (oracle);
an unknown method falls back to the midpoint. -/
def tie_break_cutoff (env : Numerics) (method : String) (c1 c2 : Component) : ℚ :=
  if method = "midpoint" then (c1.mean + c2.mean) / 2
  else if method = "intersection" then env.tie_break "intersection" c1 c2
  else if method = "probability" then env.tie_break "probability" c1 c2
  else if method = "valley" then env.tie_break "valley" c1 c2
  else (c1.mean + c2.mean) / 2

/-- The part of the identify_natural_cutoffs result dictionary the claims
and the dispatcher read (gmm_based, recommended and recommended_cutoffs
are the same list in the source). -/
structure IdentifyResult where
  recommended : List ℤ
  method_used : String
  transform_params : TransformParams
  is_multimodal : Bool
  component_count : ℕ
deriving DecidableEq

/-- identify_natural_cutoffs (distribution_analysis.py lines 225-442),
restricted to the fields downstream code reads. Empty input: empty
recommendation. Fewer than 2 retained components: empty recommendation.
Otherwise one cutoff is computed from the first two components of the
mean-sorted list, transformed back to original space, clamped to
[100, 5000] and rounded (Python round, half to even). The histogram, curve
and KDE diagnostics of the source are omitted as pure reporting. -/
def identify_natural_cutoffs (env : Numerics) (lengths : List ℤ)
    (method transformType componentMethod : String) : IdentifyResult :=
  match lengths with
  | [] =>
    { recommended := []
      method_used := method
      transform_params := TransformParams.none
      is_multimodal := false
      component_count := 0 }
  | _ :: _ =>
    let mm := detect_multimodality env transformType componentMethod lengths
    match mm.components with
    | [] =>
      { recommended := []
        method_used := method
        transform_params := mm.transform_params
        is_multimodal := false
        component_count := 0 }
    | [_] =>
      { recommended := []
        method_used := method
        transform_params := mm.transform_params
        is_multimodal := false
        component_count := 1 }
    | c1 :: c2 :: rest =>
      let cutoff := tie_break_cutoff env method c1 c2
      let original := inverse_transform_q env mm.transform_params cutoff
      let clamped := min (max original 100) 5000
      { recommended := [pyRound clamped]
        method_used :=
          if method = "midpoint" ∨ method = "intersection" ∨
             method = "probability" ∨ method = "valley" then method else "midpoint"
        transform_params := mm.transform_params
        is_multimodal := true
        component_count := (c1 :: c2 :: rest).length }

/-! ## src/backend/filters/__init__.py -/

/-- The **kwargs the dispatcher reads, each optional with the source's
defaults applied at the use sites. -/
structure Params where
  min_length : Option ℤ := Option.none
  max_length : Option ℤ := Option.none
  k : Option ℚ := Option.none
  threshold : Option ℚ := Option.none
  min_cutoff : Option ℤ := Option.none
  max_cutoff : Option ℤ := Option.none
  step : Option ℤ := Option.none
  gmm_method : Option String := Option.none
  transform : Option String := Option.none
  component_method : Option String := Option.none

/-- apply_optimal_filter (filters/__init__.py lines 36-101): dispatch on
the method name; an unknown name raises ValueError. -/
def apply_optimal_filter (env : Numerics) (seq : SeqDict) (method : String)
    (p : Params) : Except PyErr SeqDict :=
  let lengths := values seq
  if method = "min_max" then
    Except.ok (filter_by_length seq p.min_length p.max_length)
  else if method = "iqr" then
    filter_by_iqr seq (p.k.getD (3/2))
  else if method = "zscore" then
    filter_by_zscore env.np_std seq (p.threshold.getD (5/2))
  else if method = "adaptive" then
    filter_by_adaptive_threshold env.np_std env.skewKurt seq
  else if method = "n50_optimize" then
    let res := find_optimal_n50_cutoff lengths p.min_cutoff p.max_cutoff 10
    Except.ok (filter_by_length seq (Option.some res.1) Option.none)
  else if method = "natural" then
    let r := identify_natural_cutoffs env lengths (p.gmm_method.getD "midpoint")
      (p.transform.getD "box-cox") (p.component_method.getD "bic")
    match r.recommended with
    | [] => Except.ok seq
    | c :: _ => Except.ok (filter_by_length seq (Option.some c) Option.none)
  else
    Except.error (PyErr.unsupportedMethod method)

/-- The process_details payload of the detailed variant, reduced to the
dispatch-relevant record head (the diagnostic histograms, score lists and
reasoning strings of the source are pure reporting and are omitted). -/
structure ProcessDetails where
  method : String
deriving DecidableEq

/-- apply_optimal_filter_with_details (filters/__init__.py lines 104-348):
the same dispatch, returning the filtered mapping together with the
process-details payload. Differences from the plain variant that matter
for control flow are kept: the iqr branch calls numpy percentile on the
raw lengths before any guard (an empty input raises there), the
n50_optimize branch reads a step parameter (default 10), the adaptive
branch delegates to the iqr or zscore detailed branch with the chosen
parameter, and the natural branch filters by a dict comprehension with
length at least the first recommended cutoff. -/
def apply_optimal_filter_with_details (env : Numerics) (seq : SeqDict)
    (method : String) (p : Params) : Except PyErr (SeqDict × ProcessDetails) :=
  let lengths := values seq
  if method = "min_max" then
    Except.ok (filter_by_length seq p.min_length p.max_length, ⟨method⟩)
  else if method = "iqr" then
    match lengths with
    | [] => Except.error PyErr.numpyEmpty
    | _ :: _ =>
      match filter_by_iqr seq (p.k.getD (3/2)) with
      | Except.error e => Except.error e
      | Except.ok filtered => Except.ok (filtered, ⟨method⟩)
  else if method = "zscore" then
    match filter_by_zscore env.np_std seq (p.threshold.getD (5/2)) with
    | Except.error e => Except.error e
    | Except.ok filtered => Except.ok (filtered, ⟨method⟩)
  else if method = "adaptive" then
    let sk := (env.skewKurt lengths).1
    let ku := (env.skewKurt lengths).2
    if 2 < |sk| then
      match lengths with
      | [] => Except.error PyErr.numpyEmpty
      | _ :: _ =>
        match filter_by_iqr seq (if 4 < |sk| then 2 else 3/2) with
        | Except.error e => Except.error e
        | Except.ok filtered => Except.ok (filtered, ⟨"iqr"⟩)
    else
      match filter_by_zscore env.np_std seq (if |ku| < 1 then 3 else 5/2) with
      | Except.error e => Except.error e
      | Except.ok filtered => Except.ok (filtered, ⟨"zscore"⟩)
  else if method = "n50_optimize" then
    let res := find_optimal_n50_cutoff lengths p.min_cutoff p.max_cutoff
      (p.step.getD 10)
    Except.ok (filter_by_length seq (Option.some res.1) Option.none, ⟨method⟩)
  else if method = "natural" then
    let r := identify_natural_cutoffs env lengths (p.gmm_method.getD "midpoint")
      (p.transform.getD "box-cox") (p.component_method.getD "bic")
    match r.recommended with
    | [] => Except.ok (seq, ⟨method⟩)
    | c :: _ => Except.ok (seq.filter (fun q => c ≤ q.2), ⟨method⟩)
  else
    Except.error (PyErr.unsupportedMethod method)

/-! ## Specification-side definitions

These follow the wording of spec.md, for comparison against the embedded
code. -/

/-- Modelled from the spec: the candidate cutoffs of the breakpoint
locator as spec.md section 4.4 describes them, one per **adjacent pair**
of the mean-sorted components, each computed with the requested tie-break
method. -/
def specAdjacentPairCandidates (env : Numerics) (method : String)
    (comps : List Component) : List ℚ :=
  List.zipWith (tie_break_cutoff env method) comps comps.tail

/-- The full Gaussian mixture density over all components, evaluated at
two transformed-space points x and y, compared: the density at x is
strictly smaller than the density at y. The density of one component with
weight w, mean m and standard deviation s at t is
w * exp(-(t-m)^2 / (2 s^2)) / (s * sqrt(2 pi)); the mixture density is the
sum over all components (spec.md section 4.4, CutoffCandidate in section
3). -/
def MixtureDensityLt (cs : List Component) (x y : ℚ) : Prop :=
  (cs.map (fun c => (c.weight : ℝ) *
      Real.exp (-(((x : ℚ) : ℝ) - (c.mean : ℝ)) ^ 2 / (2 * (c.std : ℝ) ^ 2)) /
      ((c.std : ℝ) * Real.sqrt (2 * Real.pi)))).sum <
  (cs.map (fun c => (c.weight : ℝ) *
      Real.exp (-(((y : ℚ) : ℝ) - (c.mean : ℝ)) ^ 2 / (2 * (c.std : ℝ) ^ 2)) /
      ((c.std : ℝ) * Real.sqrt (2 * Real.pi)))).sum

/-! ## The transform round trip (src/backend/filters/distribution_analysis.py
lines 499-574), stated relationally over the real numbers

transform_data fits the box-cox lambda by maximum likelihood through
scipy; the fitted lambda (a float, hence a rational) is the parameter
lamFit below. The offset is data-derived in the source (|min| + 1 when the
minimum is nonpositive, else 0) and enters as a parameter here. -/

/-- The value a single input x of transform_data is mapped to, given the
fitted lambda and the offset. Box-cox with |lambda| at most 3 is the scipy
transform ((x+offset)^lambda - 1)/lambda, with log(x+offset) at lambda 0;
an extreme fitted lambda (|lambda| over 3) is replaced by 0 (data mapped
through log1p) for a negative fit, else by 0.5 (data mapped through the
plain square root power, not the box-cox formula). The log kind is
log1p(x); the none kind is the identity. -/
def TransformValue (kind : String) (lamFit offset : ℚ) (x y : ℝ) : Prop :=
  if kind = "box-cox" then
    if |lamFit| ≤ 3 then
      if lamFit = 0 then y = Real.log (x + (offset : ℝ))
      else y = ((x + (offset : ℝ)) ^ ((lamFit : ℝ)) - 1) / (lamFit : ℝ)
    else
      if lamFit < 0 then y = Real.log (1 + (x + (offset : ℝ)))
      else y = (x + (offset : ℝ)) ^ ((1 : ℝ) / 2)
  else if kind = "log" then y = Real.log (1 + x)
  else y = x

/-- The transform_params dictionary transform_data stores alongside the
transformed data: box-cox keeps the fitted lambda when |lambda| is at most
3 and otherwise stores the clamped 0 or 0.5; log stores offset 1; anything
else stores the none params. -/
def storedParams (kind : String) (lamFit offset : ℚ) : TransformParams :=
  if kind = "box-cox" then
    TransformParams.boxcox
      (if |lamFit| ≤ 3 then lamFit else if lamFit < 0 then 0 else 1/2) offset
  else if kind = "log" then TransformParams.log 1
  else TransformParams.none

/-- inverse_transform_value (distribution_analysis.py lines 548-574) as a
relation over the reals: box-cox with |lambda| under 1e-8 is treated as
the log limit exp(v) - offset, otherwise (lambda v + 1)^(1/lambda) -
offset; log is the inverse of log1p; none is the identity. -/
def InverseValue (p : TransformParams) (v z : ℝ) : Prop :=
  match p with
  | TransformParams.boxcox lam off =>
    if |lam| < 1/100000000 then z = Real.exp v - (off : ℝ)
    else z = ((lam : ℝ) * v + 1) ^ ((1 : ℝ) / (lam : ℝ)) - (off : ℝ)
  | TransformParams.log _ => z = Real.exp v - 1
  | TransformParams.none => z = v

/-! ## Concrete instances used by the claims -/

/-- The three retained components of the C1 counterexample, sorted by
mean, in transformed space with the identity transform. -/
def exComps : List Component :=
  [⟨1/3, 1000, 1⟩, ⟨1/3, 1010, 1⟩, ⟨1/3, 2000, 1⟩]

/-- An oracle whose fitting pipeline returns the three-component mixture
above with no transform; the remaining oracle fields are inert. -/
def exEnv : Numerics :=
  { gmm_fit := fun _ _ _ =>
      { is_multimodal := true
        optimal_components := 3
        components := exComps
        transform_params := TransformParams.none }
    np_std := fun _ => 0
    skewKurt := fun _ => (0, 0)
    inv_val := fun _ v => v
    tie_break := fun _ c1 c2 => (c1.mean + c2.mean) / 2 }

/-- A 60-point input list, large enough that the mixture fit is not
skipped. -/
def exLens : List ℤ := List.replicate 60 1500

/-- The C2 input of the claim: ten sequences of length 100 and ninety of
length 10. -/
def exC2 : List ℤ := List.replicate 10 100 ++ List.replicate 90 10

/-- The C5 counterexample mapping: lengths 8, 10, 10, 11, 11. -/
def exC5 : SeqDict := [("a", 8), ("b", 10), ("c", 10), ("d", 11), ("e", 11)]

/-- The known IQR dataset of the spec: lengths 1, 2, 3, 4, 5, 100. -/
def exC5spec : SeqDict :=
  [("s1", 1), ("s2", 2), ("s3", 3), ("s4", 4), ("s5", 5), ("s6", 100)]

/-! ## Helper lemmas -/

theorem insertDesc_perm (x : ℤ) (l : List ℤ) : (insertDesc x l).Perm (x :: l) := by
  induction l with
  | nil => simp [insertDesc]
  | cons y ys ih =>
    rw [insertDesc]
    split
    · exact List.Perm.refl _
    · exact ((ih.cons y).trans (List.Perm.swap x y ys)).symm.symm

theorem sortDesc_perm (l : List ℤ) : (sortDesc l).Perm l := by
  induction l with
  | nil => simp [sortDesc]
  | cons x xs ih => exact (insertDesc_perm x (sortDesc xs)).trans (ih.cons x)

theorem sortDesc_length (l : List ℤ) : (sortDesc l).length = l.length :=
  (sortDesc_perm l).length_eq

theorem sortDesc_sum (l : List ℤ) : (sortDesc l).sum = l.sum :=
  (sortDesc_perm l).sum_eq

theorem sortDesc_mem {x : ℤ} {l : List ℤ} : x ∈ sortDesc l ↔ x ∈ l :=
  (sortDesc_perm l).mem_iff

theorem sortDesc_eq_nil {l : List ℤ} : sortDesc l = [] ↔ l = [] := by
  constructor
  · intro h
    have := sortDesc_length l
    rw [h] at this
    exact List.length_eq_zero.mp this.symm
  · intro h; rw [h]; rfl

theorem values_length (seq : SeqDict) : (values seq).length = seq.length := by
  simp [values]


theorem keepLen_iff (minLength maxLength : Option ℤ) (v : ℤ) :
    keepLen minLength maxLength v = true ↔
      (∀ m ∈ minLength, m ≤ v) ∧ (∀ m ∈ maxLength, v ≤ m) := by
  cases minLength <;> cases maxLength <;> simp [keepLen]

theorem mem_filter_by_length {seq : SeqDict} {minLength maxLength : Option ℤ}
    {p : String × ℤ} :
    p ∈ filter_by_length seq minLength maxLength ↔
      p ∈ seq ∧ (∀ m ∈ minLength, m ≤ p.2) ∧ (∀ m ∈ maxLength, p.2 ≤ m) := by
  rw [filter_by_length, List.mem_filter, keepLen_iff]

/-! ## C8 -/

/-- C8. filter_by_length is idempotent: filtering an already-filtered
mapping again with the same optional bounds returns the identical mapping;
and an id is kept exactly when the minimum bound is unset or the length is
at least it, and the maximum bound is unset or the length is at most it
(both bounds inclusive). -/
theorem C8_filter_by_length_idempotent (seq : SeqDict)
    (minLength maxLength : Option ℤ) :
    filter_by_length (filter_by_length seq minLength maxLength) minLength maxLength
        = filter_by_length seq minLength maxLength ∧
      ∀ p : String × ℤ,
        p ∈ filter_by_length seq minLength maxLength ↔
          p ∈ seq ∧ (∀ m ∈ minLength, m ≤ p.2) ∧ (∀ m ∈ maxLength, p.2 ≤ m) := by
  constructor
  · rw [filter_by_length, filter_by_length, List.filter_filter]
    exact List.filter_congr (fun p _ => by rw [Bool.and_self])
  · intro p
    exact mem_filter_by_length

/-! ## C4 -/

theorem n50_l50_go_spec (total : ℚ) :
    ∀ (s : List ℤ) (r : ℚ) (m : ℕ), s ≠ [] →
      total / 2 ≤ r + ((s.sum : ℤ) : ℚ) →
      ∃ i, i < s.length ∧
        (∀ j, j < i → ¬ total / 2 ≤ r + (((s.take (j + 1)).sum : ℤ) : ℚ)) ∧
        total / 2 ≤ r + (((s.take (i + 1)).sum : ℤ) : ℚ) ∧
        n50_go total s r = some ((s.getD i 0 : ℤ) : ℚ) ∧
        l50_go total s r m = some (m + i) := by
  intro s
  induction s with
  | nil => intro r m h; exact absurd rfl h
  | cons x xs ih =>
    intro r m _ hsum
    by_cases hx : total / 2 ≤ r + (x : ℚ)
    · refine ⟨0, by simp, ?_, ?_, ?_, ?_⟩
      · intro j hj; omega
      · simpa using hx
      · rw [n50_go, if_pos hx]; rfl
      · rw [l50_go, if_pos hx]; rfl
    · have hxs : xs ≠ [] := by
        intro h
        rw [h] at hsum
        simp at hsum
        exact hx hsum
      have hsum2 : total / 2 ≤ (r + (x : ℚ)) + ((xs.sum : ℤ) : ℚ) := by
        rw [add_assoc]
        convert hsum using 2
        push_cast [List.sum_cons]
        ring
      obtain ⟨i, hilen, hprev, hreach, hn, hl⟩ := ih (r + (x : ℚ)) (m + 1) hxs hsum2
      refine ⟨i + 1, by simpa using Nat.succ_lt_succ hilen, ?_, ?_, ?_, ?_⟩
      · intro j hj
        match j with
        | 0 => simpa using hx
        | j' + 1 =>
          have hj' : j' < i := by omega
          have hmiss := hprev j' hj'
          intro hcon
          apply hmiss
          rw [List.take_succ_cons, List.sum_cons] at hcon
          push_cast at hcon ⊢
          linarith
      · rw [List.take_succ_cons, List.sum_cons]
        push_cast at hreach ⊢
        linarith
      · rw [n50_go, if_neg hx, hn]
        rfl
      · rw [l50_go, if_neg hx, hl]
        congr 1
        omega

theorem l50_go_lt (total : ℚ) :
    ∀ (s : List ℤ) (r : ℚ) (m i : ℕ), l50_go total s r m = some i → i < m + s.length := by
  intro s
  induction s with
  | nil => intro r m i h; simp [l50_go] at h
  | cons x xs ih =>
    intro r m i h
    rw [l50_go] at h
    split at h
    · cases h; simp
    · have := ih (r + (x : ℚ)) (m + 1) i h
      simpa [Nat.add_comm, Nat.add_left_comm, Nat.add_assoc] using Nat.lt_of_lt_of_le this (by omega)

theorem calculate_l50_le (l : List ℤ) : calculate_l50 l ≤ l.length := by
  match l with
  | [] => simp [calculate_l50]
  | x :: xs =>
    rw [calculate_l50]
    have hlen := sortDesc_length (x :: xs)
    cases hgo : l50_go ((((sortDesc (x :: xs)).sum : ℤ) : ℚ)) (sortDesc (x :: xs)) 0 1 with
    | none => simp [hgo, hlen]
    | some i =>
      have := l50_go_lt _ _ _ _ _ hgo
      simp only [hgo]
      omega

/-- C4. calculate_n50 of a nonempty list of nonnegative lengths is the
entry of the descending-sorted list at the first index where the running
sum reaches at least half of the total, and calculate_l50 is the 1-based
count of entries consumed to that point; calculate_l50 never exceeds the
number of sequences, and the empty list yields N50 = 0 and L50 = 0 without
raising. -/
theorem C4_n50_l50_spec :
    calculate_n50 [] = 0 ∧ calculate_l50 [] = 0 ∧
      (∀ l : List ℤ, calculate_l50 l ≤ l.length) ∧
      ∀ l : List ℤ, l ≠ [] → (∀ x ∈ l, 0 ≤ x) →
        ∃ i, i < (sortDesc l).length ∧
          halfReached (sortDesc l) i ∧
          (∀ j, j < i → ¬ halfReached (sortDesc l) j) ∧
          calculate_n50 l = (((sortDesc l).getD i 0 : ℤ) : ℚ) ∧
          calculate_l50 l = i + 1 := by
  refine ⟨rfl, rfl, calculate_l50_le, ?_⟩
  intro l hne hpos
  match l, hne with
  | x :: xs, _ =>
    set s := sortDesc (x :: xs) with hs
    have hsne : s ≠ [] := by
      rw [hs]
      intro h
      exact List.cons_ne_nil x xs (sortDesc_eq_nil.mp h)
    have hsum_nonneg : (0 : ℚ) ≤ ((s.sum : ℤ) : ℚ) := by
      have : (0 : ℤ) ≤ s.sum :=
        List.sum_nonneg (fun y hy => hpos y (sortDesc_mem.mp hy))
      exact_mod_cast this
    have hhalf : (((s.sum : ℤ) : ℚ)) / 2 ≤ 0 + ((s.sum : ℤ) : ℚ) := by
      rw [zero_add]
      linarith [half_le_self hsum_nonneg]
    obtain ⟨i, hilen, hprev, hreach, hn, hl⟩ :=
      n50_l50_go_spec (((s.sum : ℤ) : ℚ)) s 0 1 hsne hhalf
    refine ⟨i, hilen, ?_, ?_, ?_, ?_⟩
    · unfold halfReached
      simpa using hreach
    · intro j hj
      unfold halfReached
      have := hprev j hj
      simpa using this
    · rw [calculate_n50]
      simp only [← hs, hn]
    · rw [calculate_l50]
      simp only [← hs, hl]
      omega

/-- C4 witness at the list [3, 1]: the half-total 2 is first reached by
the leading entry 3, so N50 is 3 and L50 is 1. -/
theorem C4_n50_l50_spec_witness :
    ([3, 1] : List ℤ) ≠ [] ∧ (∀ x ∈ ([3, 1] : List ℤ), 0 ≤ x) ∧
      ∃ i, i < (sortDesc [3, 1]).length ∧
        halfReached (sortDesc [3, 1]) i ∧
        (∀ j, j < i → ¬ halfReached (sortDesc [3, 1]) j) ∧
        calculate_n50 [3, 1] = (((sortDesc [3, 1]).getD i 0 : ℤ) : ℚ) ∧
        calculate_l50 [3, 1] = i + 1 :=
  ⟨by decide, by decide, C4_n50_l50_spec.2.2.2 [3, 1] (by decide) (by decide)⟩

/-! ## C2 -/

/-- The scan invariant: starting from the initial pair, the best pair is
either still the initial pair, or records a scanned cutoff whose resulting
N50 is strictly greater than the initial N50. -/
theorem scan_cutoffs_spec (lengths : List ℤ) :
    ∀ (cs : List ℤ) (b init : ℤ × ℚ),
      (b = init ∨ (init.2 < b.2 ∧ b.2 = calculate_n50_after_filtering lengths b.1)) →
      (scan_cutoffs lengths cs b = init ∨
        (init.2 < (scan_cutoffs lengths cs b).2 ∧
          (scan_cutoffs lengths cs b).2 =
            calculate_n50_after_filtering lengths (scan_cutoffs lengths cs b).1)) := by
  intro cs
  induction cs with
  | nil => intro b init h; exact h
  | cons c cs' ih =>
    intro b init h
    rw [scan_cutoffs]
    apply ih
    by_cases hlt : b.2 < calculate_n50_after_filtering lengths c
    · right
      rw [if_pos hlt]
      refine ⟨?_, rfl⟩
      rcases h with h | h
      · rw [h] at hlt; exact hlt
      · exact lt_trans h.1 hlt
    · rw [if_neg hlt]
      exact h

/-- The evaluation of the C2 scan on the claim's input: the initial
unfiltered N50 is already 100, no scanned cutoff strictly improves it, and
the best pair stays (0, 100). -/
theorem exC2_eval :
    find_optimal_n50_cutoff exC2 (Option.some 50) (Option.some 100) 10 = (0, 100) ∧
      calculate_n50 exC2 = 100 := by
  constructor <;>
    norm_num [find_optimal_n50_cutoff, exC2, calculate_n50,
      calculate_n50_after_filtering, scan_cutoffs, simulate_min_length_filter,
      pyRange, sortDesc, insertDesc, n50_go, List.replicate, List.range,
      List.range.loop]

/-- C2 counterexample. On the lengths [100] * 10 ++ [10] * 90 with cutoffs
scanned from 50 to 100 in steps of 10, find_optimal_n50_cutoff returns
cutoff 0 (keep everything, N50 100), not cutoff 100 as the claim states:
the initial unfiltered N50 is already 100, and a scanned cutoff only
replaces the baseline when its N50 is strictly greater. -/
theorem C2_counterexample :
    find_optimal_n50_cutoff exC2 (Option.some 50) (Option.some 100) 10 = (0, 100) ∧
      (0 : ℤ) ≠ 100 :=
  ⟨exC2_eval.1, by decide⟩

/-- C2 as amended. On the claim's input the function returns cutoff 0 with
the initial unfiltered N50 of 100 (no scanned cutoff strictly improves
it); in general the returned N50 is at least the initial unfiltered N50,
and whenever a nonzero cutoff is returned its resulting N50 is strictly
greater than the initial N50 and is the N50 of the sequences surviving
that cutoff. -/
theorem C2_find_optimal_n50_cutoff :
    (find_optimal_n50_cutoff exC2 (Option.some 50) (Option.some 100) 10
        = (0, calculate_n50 exC2)) ∧
      (∀ (l : List ℤ) (mc xc : Option ℤ) (s : ℤ),
        calculate_n50 l ≤ (find_optimal_n50_cutoff l mc xc s).2) ∧
      ∀ (l : List ℤ) (mc xc : Option ℤ) (s : ℤ),
        (find_optimal_n50_cutoff l mc xc s).1 ≠ 0 →
          calculate_n50 l < (find_optimal_n50_cutoff l mc xc s).2 ∧
          (find_optimal_n50_cutoff l mc xc s).2 =
            calculate_n50_after_filtering l (find_optimal_n50_cutoff l mc xc s).1 := by
  refine ⟨by rw [exC2_eval.1, exC2_eval.2], ?_, ?_⟩
  · intro l mc xc s
    match l with
    | [] => simp [find_optimal_n50_cutoff, calculate_n50]
    | x :: xs =>
      rw [find_optimal_n50_cutoff]
      have h := scan_cutoffs_spec (x :: xs)
        (pyRange (mc.getD (max 1 (listMin (x :: xs) / 10)))
          ((xc.getD (pyTrunc (npMedian (x :: xs)))) + 1) s)
        (0, calculate_n50 (x :: xs)) (0, calculate_n50 (x :: xs)) (Or.inl rfl)
      rcases h with h | h
      · rw [h]
      · exact le_of_lt h.1
  · intro l mc xc s hne
    match l, hne with
    | x :: xs, hne =>
      rw [find_optimal_n50_cutoff] at hne ⊢
      have h := scan_cutoffs_spec (x :: xs)
        (pyRange (mc.getD (max 1 (listMin (x :: xs) / 10)))
          ((xc.getD (pyTrunc (npMedian (x :: xs)))) + 1) s)
        (0, calculate_n50 (x :: xs)) (0, calculate_n50 (x :: xs)) (Or.inl rfl)
      rcases h with h | h
      · exact absurd (congrArg Prod.fst h) hne
      · exact h

/-- C2 witness for the amended strict-improvement clause, at the lengths
[6, 5, 2] with the single scanned cutoff 3: dropping the 2 raises the N50
from 5 to 6, so the returned cutoff is the nonzero 3. -/
theorem C2_find_optimal_n50_cutoff_witness :
    (find_optimal_n50_cutoff [6, 5, 2] (Option.some 3) (Option.some 3) 1).1 ≠ 0 ∧
      calculate_n50 [6, 5, 2] <
        (find_optimal_n50_cutoff [6, 5, 2] (Option.some 3) (Option.some 3) 1).2 ∧
      (find_optimal_n50_cutoff [6, 5, 2] (Option.some 3) (Option.some 3) 1).2 =
        calculate_n50_after_filtering [6, 5, 2]
          (find_optimal_n50_cutoff [6, 5, 2] (Option.some 3) (Option.some 3) 1).1 := by
  have h1 : (find_optimal_n50_cutoff [6, 5, 2] (Option.some 3) (Option.some 3) 1).1 ≠ 0 := by
    norm_num [find_optimal_n50_cutoff, calculate_n50, calculate_n50_after_filtering,
      scan_cutoffs, simulate_min_length_filter, pyRange, sortDesc, insertDesc, n50_go,
      List.range, List.range.loop]
  have h2 := C2_find_optimal_n50_cutoff.2.2 [6, 5, 2] (Option.some 3) (Option.some 3) 1 h1
  exact ⟨h1, h2.1, h2.2⟩

/-! ## Shape lemmas for the three threshold-based wrappers -/

theorem filter_by_iqr_ok {seq : SeqDict} {k : ℚ} {out : SeqDict}
    (h : filter_by_iqr seq k = Except.ok out) :
    ∃ mn mx, out = filter_by_length seq mn mx := by
  rw [filter_by_iqr] at h
  rcases hthr : calculate_iqr_thresholds (values seq) k with ⟨lo, hi⟩
  rw [hthr] at h
  cases hi with
  | none => exact absurd h (by simp)
  | some hi => exact ⟨_, _, (Except.ok.inj h).symm⟩

theorem filter_by_iqr_error {seq : SeqDict} {k : ℚ} {e : PyErr}
    (h : filter_by_iqr seq k = Except.error e) : e = PyErr.overflow := by
  rw [filter_by_iqr] at h
  rcases hthr : calculate_iqr_thresholds (values seq) k with ⟨lo, hi⟩
  rw [hthr] at h
  cases hi with
  | none => exact (Except.error.inj h).symm
  | some hi => exact absurd h (by simp)

theorem filter_by_zscore_ok {npStd : List ℤ → ℚ} {seq : SeqDict} {z : ℚ} {out : SeqDict}
    (h : filter_by_zscore npStd seq z = Except.ok out) :
    ∃ mn mx, out = filter_by_length seq mn mx := by
  rw [filter_by_zscore] at h
  rcases hthr : calculate_zscore_thresholds npStd (values seq) z with ⟨lo, hi⟩
  rw [hthr] at h
  cases hi with
  | none => exact absurd h (by simp)
  | some hi => exact ⟨_, _, (Except.ok.inj h).symm⟩

theorem filter_by_zscore_error {npStd : List ℤ → ℚ} {seq : SeqDict} {z : ℚ} {e : PyErr}
    (h : filter_by_zscore npStd seq z = Except.error e) : e = PyErr.overflow := by
  rw [filter_by_zscore] at h
  rcases hthr : calculate_zscore_thresholds npStd (values seq) z with ⟨lo, hi⟩
  rw [hthr] at h
  cases hi with
  | none => exact (Except.error.inj h).symm
  | some hi => exact absurd h (by simp)

theorem filter_by_adaptive_ok {npStd : List ℤ → ℚ} {skewKurt : List ℤ → ℚ × ℚ}
    {seq : SeqDict} {out : SeqDict}
    (h : filter_by_adaptive_threshold npStd skewKurt seq = Except.ok out) :
    ∃ mn mx, out = filter_by_length seq mn mx := by
  rw [filter_by_adaptive_threshold] at h
  rcases hthr : adaptive_threshold_calculator npStd skewKurt (values seq) with ⟨lo, hi⟩
  rw [hthr] at h
  cases hi with
  | none => exact absurd h (by simp)
  | some hi => exact ⟨_, _, (Except.ok.inj h).symm⟩

theorem filter_by_adaptive_error {npStd : List ℤ → ℚ} {skewKurt : List ℤ → ℚ × ℚ}
    {seq : SeqDict} {e : PyErr}
    (h : filter_by_adaptive_threshold npStd skewKurt seq = Except.error e) :
    e = PyErr.overflow := by
  rw [filter_by_adaptive_threshold] at h
  rcases hthr : adaptive_threshold_calculator npStd skewKurt (values seq) with ⟨lo, hi⟩
  rw [hthr] at h
  cases hi with
  | none => exact (Except.error.inj h).symm
  | some hi => exact absurd h (by simp)

/-! ## C10 -/

/-- C10. On fewer than 4 entries the IQR threshold helper returns an upper
threshold of float('inf') (the absent upper value), so filter_by_iqr
raises OverflowError from int(float('inf')) instead of filtering; likewise
the Z-score threshold helper on fewer than 2 entries, and filter_by_zscore
raises. -/
theorem C10_small_input_overflow :
    (∀ (l : List ℤ) (k : ℚ), l.length < 4 →
        calculate_iqr_thresholds l k = (0, Option.none)) ∧
      (∀ (seq : SeqDict) (k : ℚ), seq.length < 4 →
        filter_by_iqr seq k = Except.error PyErr.overflow) ∧
      (∀ (npStd : List ℤ → ℚ) (l : List ℤ) (z : ℚ), l.length < 2 →
        calculate_zscore_thresholds npStd l z = (0, Option.none)) ∧
      ∀ (npStd : List ℤ → ℚ) (seq : SeqDict) (z : ℚ), seq.length < 2 →
        filter_by_zscore npStd seq z = Except.error PyErr.overflow := by
  have hiqr : ∀ (l : List ℤ) (k : ℚ), l.length < 4 →
      calculate_iqr_thresholds l k = (0, Option.none) := by
    intro l k h
    rw [calculate_iqr_thresholds, if_pos h]
  have hz : ∀ (npStd : List ℤ → ℚ) (l : List ℤ) (z : ℚ), l.length < 2 →
      calculate_zscore_thresholds npStd l z = (0, Option.none) := by
    intro npStd l z h
    rw [calculate_zscore_thresholds, if_pos h]
  refine ⟨hiqr, ?_, hz, ?_⟩
  · intro seq k h
    rw [filter_by_iqr, hiqr (values seq) k (by rw [values_length]; exact h)]
  · intro npStd seq z h
    rw [filter_by_zscore, hz npStd (values seq) z (by rw [values_length]; exact h)]

/-- C10 witness at the empty mapping (IQR) and a one-entry mapping
(Z-score). -/
theorem C10_small_input_overflow_witness :
    (([] : SeqDict).length < 4 ∧
        filter_by_iqr [] (3/2) = Except.error PyErr.overflow) ∧
      ([("a", 5)] : SeqDict).length < 2 ∧
        filter_by_zscore (fun _ => 0) [("a", 5)] (5/2) = Except.error PyErr.overflow :=
  ⟨⟨by decide, C10_small_input_overflow.2.1 [] (3/2) (by decide)⟩,
    by decide, C10_small_input_overflow.2.2.2 (fun _ => 0) [("a", 5)] (5/2) (by decide)⟩

/-! ## C9 -/

/-- C9. Whenever apply_optimal_filter returns normally, every entry of the
output mapping is an entry of the input mapping (same id, same length):
filtering never invents or rewrites entries, for every method name,
parameter set and numeric oracle. -/
theorem C9_output_submapping (env : Numerics) (seq : SeqDict) (method : String)
    (p : Params) (out : SeqDict)
    (h : apply_optimal_filter env seq method p = Except.ok out) :
    ∀ q : String × ℤ, q ∈ out → q ∈ seq := by
  intro q hq
  rw [apply_optimal_filter] at h
  split_ifs at h
  · rw [← Except.ok.inj h] at hq
    exact (mem_filter_by_length.mp hq).1
  · obtain ⟨mn, mx, hout⟩ := filter_by_iqr_ok h
    rw [hout] at hq
    exact (mem_filter_by_length.mp hq).1
  · obtain ⟨mn, mx, hout⟩ := filter_by_zscore_ok h
    rw [hout] at hq
    exact (mem_filter_by_length.mp hq).1
  · obtain ⟨mn, mx, hout⟩ := filter_by_adaptive_ok h
    rw [hout] at hq
    exact (mem_filter_by_length.mp hq).1
  · rw [← Except.ok.inj h] at hq
    exact (mem_filter_by_length.mp hq).1
  · simp only [] at h
    rcases hrec : (identify_natural_cutoffs env (values seq) (p.gmm_method.getD "midpoint")
        (p.transform.getD "box-cox") (p.component_method.getD "bic")).recommended with
      _ | ⟨c, cs⟩
    · simp only [hrec] at h
      rw [← Except.ok.inj h] at hq
      exact hq
    · simp only [hrec] at h
      rw [← Except.ok.inj h] at hq
      exact (mem_filter_by_length.mp hq).1

/-- C9 witness at a two-entry mapping filtered with min_max bounds. -/
theorem C9_output_submapping_witness :
    apply_optimal_filter exEnv [("a", 5), ("b", 50)] "min_max"
        { min_length := Option.some 10 } = Except.ok [("b", 50)] ∧
      (("b", 50) : String × ℤ) ∈ [("b", 50)] ∧
      (("b", 50) : String × ℤ) ∈ ([("a", 5), ("b", 50)] : SeqDict) :=
  ⟨by rfl,
    by decide,
    C9_output_submapping exEnv [("a", 5), ("b", 50)] "min_max"
      { min_length := Option.some 10 } [("b", 50)] (by rfl) ("b", 50) (by decide)⟩

/-! ## Dispatch equations (definitional reductions of the method chain) -/

theorem apply_min_max_eq (env : Numerics) (seq : SeqDict) (p : Params) :
    apply_optimal_filter env seq "min_max" p =
      Except.ok (filter_by_length seq p.min_length p.max_length) := rfl

theorem apply_iqr_eq (env : Numerics) (seq : SeqDict) (p : Params) :
    apply_optimal_filter env seq "iqr" p = filter_by_iqr seq (p.k.getD (3/2)) := rfl

theorem apply_zscore_eq (env : Numerics) (seq : SeqDict) (p : Params) :
    apply_optimal_filter env seq "zscore" p =
      filter_by_zscore env.np_std seq (p.threshold.getD (5/2)) := rfl

theorem apply_adaptive_eq (env : Numerics) (seq : SeqDict) (p : Params) :
    apply_optimal_filter env seq "adaptive" p =
      filter_by_adaptive_threshold env.np_std env.skewKurt seq := rfl

theorem apply_n50_eq (env : Numerics) (seq : SeqDict) (p : Params) :
    apply_optimal_filter env seq "n50_optimize" p =
      Except.ok (filter_by_length seq
        (Option.some (find_optimal_n50_cutoff (values seq) p.min_cutoff p.max_cutoff 10).1)
        Option.none) := rfl

theorem apply_natural_eq (env : Numerics) (seq : SeqDict) (p : Params) :
    apply_optimal_filter env seq "natural" p =
      match (identify_natural_cutoffs env (values seq) (p.gmm_method.getD "midpoint")
          (p.transform.getD "box-cox") (p.component_method.getD "bic")).recommended with
      | [] => Except.ok seq
      | c :: _ => Except.ok (filter_by_length seq (Option.some c) Option.none) := rfl

/-- Every error the plain dispatcher can produce on a known method name is
an OverflowError from a threshold wrapper, never an unknown-method
ValueError. -/
theorem apply_known_error {env : Numerics} {seq : SeqDict} {p : Params} {m : String}
    {e : PyErr}
    (hm : m ∈ (["min_max", "iqr", "zscore", "adaptive", "n50_optimize", "natural"] :
      List String))
    (h : apply_optimal_filter env seq m p = Except.error e) : e = PyErr.overflow := by
  simp only [List.mem_cons, List.mem_singleton, List.not_mem_nil, or_false] at hm
  rcases hm with rfl | rfl | rfl | rfl | rfl | rfl
  · rw [apply_min_max_eq] at h
    exact absurd h (by simp)
  · rw [apply_iqr_eq] at h
    exact filter_by_iqr_error h
  · rw [apply_zscore_eq] at h
    exact filter_by_zscore_error h
  · rw [apply_adaptive_eq] at h
    exact filter_by_adaptive_error h
  · rw [apply_n50_eq] at h
    exact absurd h (by simp)
  · rw [apply_natural_eq] at h
    rcases hrec : (identify_natural_cutoffs env (values seq) (p.gmm_method.getD "midpoint")
        (p.transform.getD "box-cox") (p.component_method.getD "bic")).recommended with
      _ | cc
    · simp only [hrec] at h
      exact absurd h (by simp)
    · simp only [hrec] at h
      exact absurd h (by simp)

theorem details_min_max_eq (env : Numerics) (seq : SeqDict) (p : Params) :
    apply_optimal_filter_with_details env seq "min_max" p =
      Except.ok (filter_by_length seq p.min_length p.max_length, ⟨"min_max"⟩) := rfl

theorem details_iqr_eq (env : Numerics) (seq : SeqDict) (p : Params) :
    apply_optimal_filter_with_details env seq "iqr" p =
      (match values seq with
      | [] => Except.error PyErr.numpyEmpty
      | _ :: _ =>
        match filter_by_iqr seq (p.k.getD (3/2)) with
        | Except.error e => Except.error e
        | Except.ok filtered => Except.ok (filtered, ⟨"iqr"⟩)) := rfl

theorem details_zscore_eq (env : Numerics) (seq : SeqDict) (p : Params) :
    apply_optimal_filter_with_details env seq "zscore" p =
      (match filter_by_zscore env.np_std seq (p.threshold.getD (5/2)) with
      | Except.error e => Except.error e
      | Except.ok filtered => Except.ok (filtered, ⟨"zscore"⟩)) := rfl

theorem details_adaptive_eq (env : Numerics) (seq : SeqDict) (p : Params) :
    apply_optimal_filter_with_details env seq "adaptive" p =
      (if 2 < |(env.skewKurt (values seq)).1| then
        match values seq with
        | [] => Except.error PyErr.numpyEmpty
        | _ :: _ =>
          match filter_by_iqr seq (if 4 < |(env.skewKurt (values seq)).1| then 2 else 3/2) with
          | Except.error e => Except.error e
          | Except.ok filtered => Except.ok (filtered, ⟨"iqr"⟩)
      else
        match filter_by_zscore env.np_std seq
            (if |(env.skewKurt (values seq)).2| < 1 then 3 else 5/2) with
        | Except.error e => Except.error e
        | Except.ok filtered => Except.ok (filtered, ⟨"zscore"⟩)) := rfl

theorem details_n50_eq (env : Numerics) (seq : SeqDict) (p : Params) :
    apply_optimal_filter_with_details env seq "n50_optimize" p =
      Except.ok (filter_by_length seq
        (Option.some (find_optimal_n50_cutoff (values seq) p.min_cutoff p.max_cutoff
          (p.step.getD 10)).1) Option.none, ⟨"n50_optimize"⟩) := rfl

theorem details_natural_eq (env : Numerics) (seq : SeqDict) (p : Params) :
    apply_optimal_filter_with_details env seq "natural" p =
      (match (identify_natural_cutoffs env (values seq) (p.gmm_method.getD "midpoint")
          (p.transform.getD "box-cox") (p.component_method.getD "bic")).recommended with
      | [] => Except.ok (seq, ⟨"natural"⟩)
      | c :: _ => Except.ok (seq.filter (fun q => c ≤ q.2), ⟨"natural"⟩)) := rfl

/-- Every error the detailed dispatcher can produce on a known method name
is an OverflowError or the numpy empty-array IndexError, never an
unknown-method ValueError. -/
theorem apply_details_known_error {env : Numerics} {seq : SeqDict} {p : Params}
    {m : String} {e : PyErr}
    (hm : m ∈ (["min_max", "iqr", "zscore", "adaptive", "n50_optimize", "natural"] :
      List String))
    (h : apply_optimal_filter_with_details env seq m p = Except.error e) :
    e = PyErr.overflow ∨ e = PyErr.numpyEmpty := by
  simp only [List.mem_cons, List.mem_singleton, List.not_mem_nil, or_false] at hm
  rcases hm with rfl | rfl | rfl | rfl | rfl | rfl
  · rw [details_min_max_eq] at h
    exact absurd h (by simp)
  · rw [details_iqr_eq] at h
    rcases hv : values seq with _ | vv
    · rw [hv] at h
      simp only [] at h
      exact Or.inr (Except.error.inj h).symm
    · rw [hv] at h
      rcases hr : filter_by_iqr seq (p.k.getD (3/2)) with e2 | o
      · rw [hr] at h
        simp only [] at h
        exact Or.inl ((Except.error.inj h).symm.trans (filter_by_iqr_error hr))
      · rw [hr] at h
        exact absurd h (by simp)
  · rw [details_zscore_eq] at h
    rcases hr : filter_by_zscore env.np_std seq (p.threshold.getD (5/2)) with e2 | o
    · rw [hr] at h
      simp only [] at h
      exact Or.inl ((Except.error.inj h).symm.trans (filter_by_zscore_error hr))
    · rw [hr] at h
      exact absurd h (by simp)
  · rw [details_adaptive_eq] at h
    split at h
    · rcases hv : values seq with _ | ⟨vv, vt⟩
      · rw [hv] at h
        simp only [] at h
        exact Or.inr (Except.error.inj h).symm
      · rw [hv] at h
        rcases hr : filter_by_iqr seq
            (if 4 < |(env.skewKurt (vv :: vt)).1| then 2 else 3/2) with e2 | o
        · rw [hr] at h
          simp only [] at h
          exact Or.inl ((Except.error.inj h).symm.trans (filter_by_iqr_error hr))
        · rw [hr] at h
          exact absurd h (by simp)
    · rcases hr : filter_by_zscore env.np_std seq
          (if |(env.skewKurt (values seq)).2| < 1 then 3 else 5/2) with e2 | o
      · rw [hr] at h
        simp only [] at h
        exact Or.inl ((Except.error.inj h).symm.trans (filter_by_zscore_error hr))
      · rw [hr] at h
        exact absurd h (by simp)
  · rw [details_n50_eq] at h
    exact absurd h (by simp)
  · rw [details_natural_eq] at h
    rcases hrec : (identify_natural_cutoffs env (values seq) (p.gmm_method.getD "midpoint")
        (p.transform.getD "box-cox") (p.component_method.getD "bic")).recommended with
      _ | cc
    · simp only [hrec] at h
      exact absurd h (by simp)
    · simp only [hrec] at h
      exact absurd h (by simp)

/-! ## C6 -/

/-- C6. An unknown method name makes both apply_optimal_filter and its
detailed variant signal the unknown-method ValueError carrying that name
(no silent pass-through), while each of the six known method names never
produces that error, for every input mapping, parameter set and numeric
oracle. -/
theorem C6_unsupported_method :
    (∀ (env : Numerics) (seq : SeqDict) (p : Params) (m : String),
        m ∉ (["min_max", "iqr", "zscore", "adaptive", "n50_optimize", "natural"] :
          List String) →
        apply_optimal_filter env seq m p = Except.error (PyErr.unsupportedMethod m) ∧
        apply_optimal_filter_with_details env seq m p =
          Except.error (PyErr.unsupportedMethod m)) ∧
      ∀ (env : Numerics) (seq : SeqDict) (p : Params) (m : String),
        m ∈ (["min_max", "iqr", "zscore", "adaptive", "n50_optimize", "natural"] :
          List String) →
        ∀ s : String,
          apply_optimal_filter env seq m p ≠ Except.error (PyErr.unsupportedMethod s) ∧
          apply_optimal_filter_with_details env seq m p ≠
            Except.error (PyErr.unsupportedMethod s) := by
  constructor
  · intro env seq p m hm
    simp only [List.mem_cons, List.mem_singleton, List.not_mem_nil, or_false,
      not_or] at hm
    obtain ⟨h1, h2, h3, h4, h5, h6⟩ := hm
    constructor
    · rw [apply_optimal_filter]
      rw [if_neg h1, if_neg h2, if_neg h3, if_neg h4, if_neg h5, if_neg h6]
    · rw [apply_optimal_filter_with_details]
      rw [if_neg h1, if_neg h2, if_neg h3, if_neg h4, if_neg h5, if_neg h6]
  · intro env seq p m hm s
    constructor
    · intro heq
      have := apply_known_error hm heq
      exact absurd this (by simp)
    · intro heq
      rcases apply_details_known_error hm heq with hh | hh <;> exact absurd hh (by simp)

/-- C6 witness: the unknown name "bogus" errors with the unknown-method
ValueError, while the known name "natural" never produces it. -/
theorem C6_unsupported_method_witness :
    ("bogus" ∉ (["min_max", "iqr", "zscore", "adaptive", "n50_optimize", "natural"] :
        List String)) ∧
      apply_optimal_filter exEnv [] "bogus" {} =
        Except.error (PyErr.unsupportedMethod "bogus") ∧
      ("natural" ∈ (["min_max", "iqr", "zscore", "adaptive", "n50_optimize", "natural"] :
        List String)) ∧
      apply_optimal_filter exEnv [] "natural" {} ≠
        Except.error (PyErr.unsupportedMethod "x") :=
  ⟨by decide,
    (C6_unsupported_method.1 exEnv [] {} "bogus" (by decide)).1,
    by decide,
    (C6_unsupported_method.2 exEnv [] {} "natural" (by decide) "x").1⟩

/-! ## C3 -/

/-- Below 50 points identify_natural_cutoffs recommends nothing: either
the input is empty, or the size guard of detect_multimodality leaves no
components and the fewer-than-2-components branch returns the empty
recommendation. -/
theorem identify_natural_cutoffs_short (env : Numerics) (lengths : List ℤ)
    (method transformType componentMethod : String)
    (h : lengths.length < 50) :
    identify_natural_cutoffs env lengths method transformType componentMethod =
      { recommended := []
        method_used := method
        transform_params := TransformParams.none
        is_multimodal := false
        component_count := 0 } := by
  match lengths with
  | [] => rfl
  | x :: xs =>
    rw [identify_natural_cutoffs]
    have hdet : detect_multimodality env transformType componentMethod (x :: xs) =
        insufficientDataResult := by
      rw [detect_multimodality, if_pos h]
    simp only [hdet]
    rfl

/-- C3. On a mapping with fewer than 50 entries, the natural filter method
passes the input through unchanged: the mixture fit is skipped (the result
holds for every oracle), detect_multimodality produces the degraded
single-component non-multimodal result, and no cutoff is recommended. -/
theorem C3_natural_small_input (env : Numerics) (seq : SeqDict) (p : Params)
    (h : seq.length < 50) :
    apply_optimal_filter env seq "natural" p = Except.ok seq ∧
      detect_multimodality env (p.transform.getD "box-cox")
          (p.component_method.getD "bic") (values seq) = insufficientDataResult ∧
      insufficientDataResult.optimal_components = 1 ∧
      insufficientDataResult.is_multimodal = false ∧
      (identify_natural_cutoffs env (values seq) (p.gmm_method.getD "midpoint")
        (p.transform.getD "box-cox") (p.component_method.getD "bic")).recommended = [] := by
  have hv : (values seq).length < 50 := by rw [values_length]; exact h
  have hid := identify_natural_cutoffs_short env (values seq)
    (p.gmm_method.getD "midpoint") (p.transform.getD "box-cox")
    (p.component_method.getD "bic") hv
  refine ⟨?_, ?_, rfl, rfl, ?_⟩
  · rw [apply_natural_eq]
    simp only [hid]
  · rw [detect_multimodality, if_pos hv]
  · rw [hid]

/-- C3 witness at a three-entry mapping. -/
theorem C3_natural_small_input_witness :
    ([("a", 5), ("b", 50), ("c", 700)] : SeqDict).length < 50 ∧
      apply_optimal_filter exEnv [("a", 5), ("b", 50), ("c", 700)] "natural" {} =
        Except.ok [("a", 5), ("b", 50), ("c", 700)] :=
  ⟨by decide,
    (C3_natural_small_input exEnv [("a", 5), ("b", 50), ("c", 700)] {} (by decide)).1⟩

/-! ## C5 -/

/-- C5 counterexample. For the lengths 8, 10, 10, 11, 11 with k = 1.5 the
fences are [8.5, 12.5], yet filter_by_iqr keeps the id of length 8, which
lies below the lower fence: the thresholds are truncated toward zero by
int() before filtering, so the id is compared against 8, not 8.5. -/
theorem C5_counterexample :
    calculate_iqr_thresholds (values exC5) (3/2) = (17/2, Option.some (25/2)) ∧
      filter_by_iqr exC5 (3/2) = Except.ok exC5 ∧
      (("a", 8) : String × ℤ) ∈ exC5 ∧
      ¬ ((17/2 : ℚ) ≤ ((8 : ℤ) : ℚ)) := by
  have h172 : ⌊(17/2 : ℚ)⌋ = 8 := Int.floor_eq_iff.mpr (by norm_num)
  have h252 : ⌊(25/2 : ℚ)⌋ = 12 := Int.floor_eq_iff.mpr (by norm_num)
  refine ⟨?_, ?_, by decide, by norm_num⟩
  · norm_num [calculate_iqr_thresholds, values, exC5, npPercentile, sortAsc, insertAsc]
  · norm_num [filter_by_iqr, calculate_iqr_thresholds, values, exC5, npPercentile,
      sortAsc, insertAsc, pyTrunc, h172, h252, filter_by_length, keepLen, List.filter]

/-- C5 as amended. On at least 4 entries, filter_by_iqr computes the
fences max(0, Q1 - k IQR) and Q3 + k IQR from the numpy quartiles of the
input lengths, truncates both toward zero with int(), and keeps exactly
the ids whose length lies between the truncated fences (not the exact
fences); on the spec dataset with lengths 1, 2, 3, 4, 5, 100 and k = 1.5
the id of length 100 is removed and all others are kept. -/
theorem C5_filter_by_iqr :
    (∀ (seq : SeqDict) (k : ℚ), 4 ≤ seq.length →
      ∃ lo hi,
        calculate_iqr_thresholds (values seq) k = (lo, Option.some hi) ∧
        lo = max 0 (npPercentile (values seq) 25 -
          k * (npPercentile (values seq) 75 - npPercentile (values seq) 25)) ∧
        hi = npPercentile (values seq) 75 +
          k * (npPercentile (values seq) 75 - npPercentile (values seq) 25) ∧
        filter_by_iqr seq k = Except.ok
          (filter_by_length seq (Option.some (pyTrunc lo)) (Option.some (pyTrunc hi))) ∧
        ∀ p : String × ℤ,
          p ∈ filter_by_length seq (Option.some (pyTrunc lo)) (Option.some (pyTrunc hi)) ↔
            p ∈ seq ∧ pyTrunc lo ≤ p.2 ∧ p.2 ≤ pyTrunc hi) ∧
      filter_by_iqr exC5spec (3/2) =
        Except.ok [("s1", 1), ("s2", 2), ("s3", 3), ("s4", 4), ("s5", 5)] := by
  constructor
  · intro seq k hlen
    have hguard : ¬ (values seq).length < 4 := by
      rw [values_length]; omega
    have hthr : calculate_iqr_thresholds (values seq) k =
        (max 0 (npPercentile (values seq) 25 -
            k * (npPercentile (values seq) 75 - npPercentile (values seq) 25)),
          Option.some (npPercentile (values seq) 75 +
            k * (npPercentile (values seq) 75 - npPercentile (values seq) 25))) := by
      rw [calculate_iqr_thresholds, if_neg hguard]
    refine ⟨_, _, hthr, rfl, rfl, ?_, ?_⟩
    · rw [filter_by_iqr, hthr]
    · intro p
      rw [mem_filter_by_length]
      simp [Option.mem_def]
  · have h54 : ⌊(5/4 : ℚ)⌋₊ = 1 := (Nat.floor_eq_iff (by norm_num)).mpr (by norm_num)
    have h154 : ⌊(15/4 : ℚ)⌋₊ = 3 := (Nat.floor_eq_iff (by norm_num)).mpr (by norm_num)
    have h172 : ⌊(17/2 : ℚ)⌋ = 8 := Int.floor_eq_iff.mpr (by norm_num)
    norm_num [filter_by_iqr, calculate_iqr_thresholds, values, exC5spec, npPercentile,
      sortAsc, insertAsc, pyTrunc, h54, h154, h172, filter_by_length, keepLen,
      List.filter]

/-- C5 witness for the amended characterization, at the 5-entry mapping
with lengths 8, 10, 10, 11, 11 and k = 1.5. -/
theorem C5_filter_by_iqr_witness :
    4 ≤ exC5.length ∧
      ∃ lo hi,
        calculate_iqr_thresholds (values exC5) (3/2) = (lo, Option.some hi) ∧
        lo = max 0 (npPercentile (values exC5) 25 -
          (3/2) * (npPercentile (values exC5) 75 - npPercentile (values exC5) 25)) ∧
        hi = npPercentile (values exC5) 75 +
          (3/2) * (npPercentile (values exC5) 75 - npPercentile (values exC5) 25) ∧
        filter_by_iqr exC5 (3/2) = Except.ok
          (filter_by_length exC5 (Option.some (pyTrunc lo)) (Option.some (pyTrunc hi))) ∧
        ∀ p : String × ℤ,
          p ∈ filter_by_length exC5 (Option.some (pyTrunc lo)) (Option.some (pyTrunc hi)) ↔
            p ∈ exC5 ∧ pyTrunc lo ≤ p.2 ∧ p.2 ≤ pyTrunc hi :=
  ⟨by decide, C5_filter_by_iqr.1 exC5 (3/2) (by decide)⟩

/-! ## C1 -/

/-- C1 counterexample. For the three-component mixture with means 1000,
1010 and 2000 (equal weights 1/3, standard deviations 1, identity
transform) and the midpoint tie-break, the locator returns 1005, the
midpoint of the FIRST adjacent pair only; the spec-side candidate list
over every adjacent pair is [1005, 1505], and the full mixture density at
1505 is strictly smaller than at 1005, so the returned cutoff is not the
candidate of globally smallest full-mixture density. -/
theorem C1_counterexample :
    (identify_natural_cutoffs exEnv exLens "midpoint" "none" "bic").recommended
        = [1005] ∧
      specAdjacentPairCandidates exEnv "midpoint" exComps = [1005, 1505] ∧
      MixtureDensityLt exComps 1505 1005 := by
  refine ⟨?_, ?_, ?_⟩
  · norm_num [identify_natural_cutoffs, detect_multimodality, insufficientDataResult,
      exEnv, exComps, exLens, tie_break_cutoff, inverse_transform_q, pyRound,
      List.replicate_succ]
  · norm_num [specAdjacentPairCandidates, tie_break_cutoff, exEnv, exComps]
  · rw [MixtureDensityLt]
    simp only [exComps, List.map_cons, List.map_nil, List.sum_cons, List.sum_nil,
      add_zero]
    push_cast
    norm_num
    have hS : (0:ℝ) < Real.sqrt 2 * Real.sqrt Real.pi := by positivity
    have h1 : Real.exp (-(255025/2) : ℝ) ≤ Real.exp (-(245025/2) : ℝ) :=
      Real.exp_le_exp.mpr (by norm_num)
    have h2 : Real.exp (-(245025/2) : ℝ)
        = Real.exp (-(25/2) : ℝ) * Real.exp (-(122500:ℝ)) := by
      rw [← Real.exp_add]; norm_num
    have h3 : Real.exp (-(122500:ℝ)) ≤ 1/122501 := by
      rw [Real.exp_neg]
      have hb : (122501:ℝ) ≤ Real.exp 122500 := by
        have := Real.add_one_le_exp (122500:ℝ)
        linarith
      rw [one_div]
      exact inv_anti₀ (by norm_num) hb
    have h4 : 3 * Real.exp (-(245025/2):ℝ) < Real.exp (-(25/2):ℝ) := by
      rw [h2]
      have hF1 : (0:ℝ) < Real.exp (-(25/2):ℝ) := Real.exp_pos _
      nlinarith [Real.exp_pos (-(122500:ℝ))]
    have hF1 : (0:ℝ) < Real.exp (-(25/2):ℝ) := Real.exp_pos _
    have hF3 : (0:ℝ) < Real.exp (-(990025/2):ℝ) := Real.exp_pos _
    rw [div_add_div_same, div_add_div_same, div_add_div_same, div_add_div_same,
      div_lt_div_iff_of_pos_right hS]
    linarith

/-- C1 as amended. With at least 50 points, a fit whose retained
mean-sorted components are c1, c2, rest with the identity transform, and
the midpoint tie-break, identify_natural_cutoffs recommends exactly one
cutoff: the FIRST adjacent-pair candidate (the head of the spec-side
per-pair candidate list), clamped to [100, 5000] and rounded half to even.
Components beyond the first two, and the mixture density, play no role in
the selection. -/
theorem C1_identify_first_pair (env : Numerics) (lengths : List ℤ)
    (ttype cmethod : String) (c1 c2 : Component) (rest : List Component)
    (hlen : 50 ≤ lengths.length)
    (hcomp : (env.gmm_fit ttype cmethod lengths).components = c1 :: c2 :: rest)
    (hparams : (env.gmm_fit ttype cmethod lengths).transform_params
      = TransformParams.none) :
    (identify_natural_cutoffs env lengths "midpoint" ttype cmethod).recommended =
      [pyRound (min (max ((specAdjacentPairCandidates env "midpoint"
        (c1 :: c2 :: rest)).headD 0) 100) 5000)] := by
  match lengths, hlen with
  | x :: xs, hlen =>
    have hguard : ¬ (x :: xs).length < 50 := by omega
    have hdet : detect_multimodality env ttype cmethod (x :: xs)
        = env.gmm_fit ttype cmethod (x :: xs) := by
      rw [detect_multimodality, if_neg hguard]
    rw [identify_natural_cutoffs]
    simp only [hdet, hcomp, hparams]
    simp [specAdjacentPairCandidates, tie_break_cutoff, inverse_transform_q]

/-- C1 witness at the three-component example mixture. -/
theorem C1_identify_first_pair_witness :
    50 ≤ exLens.length ∧
      (exEnv.gmm_fit "none" "bic" exLens).components =
        [⟨1/3, 1000, 1⟩, ⟨1/3, 1010, 1⟩, ⟨1/3, 2000, 1⟩] ∧
      (exEnv.gmm_fit "none" "bic" exLens).transform_params = TransformParams.none ∧
      (identify_natural_cutoffs exEnv exLens "midpoint" "none" "bic").recommended =
        [pyRound (min (max ((specAdjacentPairCandidates exEnv "midpoint"
          [⟨1/3, 1000, 1⟩, ⟨1/3, 1010, 1⟩, ⟨1/3, 2000, 1⟩]).headD 0) 100) 5000)] :=
  ⟨by decide, rfl, rfl,
    C1_identify_first_pair exEnv exLens "none" "bic" ⟨1/3, 1000, 1⟩ ⟨1/3, 1010, 1⟩
      [⟨1/3, 2000, 1⟩] (by decide) rfl rfl⟩

/-! ## C7 -/

theorem storedParams_boxcox_eq (lam off : ℚ) :
    storedParams "box-cox" lam off =
      TransformParams.boxcox (if |lam| ≤ 3 then lam else if lam < 0 then 0 else 1/2)
        off := rfl

/-- C7 counterexample. The extreme-lambda fallback of transform_data does
not round-trip: a fitted lambda of 4 maps 100 to sqrt(100) = 10, and the
stored parameters (lambda 0.5) invert 10 to 36, not 100; a fitted lambda
of -4 maps 100 to log1p(100) = log 101, and the stored parameters
(lambda 0) invert it to exp(log 101) = 101, not 100. And a tiny nonzero
fitted lambda of 1e-9 (kept by the |lambda| at most 3 branch) forwards
through the exact Box-Cox formula while the inverse takes the
lambda-under-1e-8 log branch, which lands strictly above 100, so that
round trip is not exact either. -/
theorem C7_counterexample :
    (TransformValue "box-cox" 4 0 100 10 ∧
      InverseValue (storedParams "box-cox" 4 0) 10 36 ∧ (36:ℝ) ≠ 100) ∧
    (TransformValue "box-cox" (-4) 0 100 (Real.log 101) ∧
      InverseValue (storedParams "box-cox" (-4) 0) (Real.log 101) 101 ∧
      (101:ℝ) ≠ 100) ∧
    (TransformValue "box-cox" (1/1000000000) 0 100
        (((100:ℝ) ^ (((1/1000000000 : ℚ)) : ℝ) - 1) / (((1/1000000000 : ℚ)) : ℝ)) ∧
      InverseValue (storedParams "box-cox" (1/1000000000) 0)
        (((100:ℝ) ^ (((1/1000000000 : ℚ)) : ℝ) - 1) / (((1/1000000000 : ℚ)) : ℝ))
        (Real.exp (((100:ℝ) ^ (((1/1000000000 : ℚ)) : ℝ) - 1) /
          (((1/1000000000 : ℚ)) : ℝ))) ∧
      (100:ℝ) < Real.exp (((100:ℝ) ^ (((1/1000000000 : ℚ)) : ℝ) - 1) /
        (((1/1000000000 : ℚ)) : ℝ))) := by
  have habs9 : |(1/1000000000 : ℚ)| = 1/1000000000 := abs_of_pos (by norm_num)
  refine ⟨⟨?_, ?_, by norm_num⟩, ⟨?_, ?_, by norm_num⟩, ⟨?_, ?_, ?_⟩⟩
  · rw [TransformValue, if_pos rfl, if_neg (by norm_num), if_neg (by norm_num)]
    push_cast
    rw [← Real.sqrt_eq_rpow, show ((100:ℝ) + 0) = 10^2 by norm_num,
      Real.sqrt_sq (by norm_num)]
  · rw [storedParams_boxcox_eq, if_neg (by norm_num), if_neg (by norm_num),
      InverseValue, if_neg (by rw [abs_of_pos (by norm_num)]; norm_num)]
    push_cast
    rw [show ((1:ℝ)/(1/2)) = ((2:ℕ):ℝ) by norm_num, Real.rpow_natCast]
    norm_num
  · rw [TransformValue, if_pos rfl, if_neg (by norm_num), if_pos (by norm_num)]
    push_cast
    norm_num
  · rw [storedParams_boxcox_eq, if_neg (by norm_num), if_pos (by norm_num),
      InverseValue, if_pos (by norm_num)]
    push_cast
    rw [Real.exp_log (by norm_num)]
    norm_num
  · rw [TransformValue, if_pos rfl, if_pos (by rw [habs9]; norm_num),
      if_neg (by norm_num)]
    push_cast
    norm_num
  · rw [storedParams_boxcox_eq, if_pos (by rw [habs9]; norm_num), InverseValue,
      if_pos (by rw [habs9]; norm_num)]
    push_cast
    norm_num
  · have hlam : (0:ℝ) < ((1/1000000000 : ℚ) : ℝ) := by norm_num
    have hlog : (0:ℝ) < Real.log 100 := Real.log_pos (by norm_num)
    have hpow : (100:ℝ) ^ (((1/1000000000 : ℚ)) : ℝ)
        = Real.exp (((1/1000000000 : ℚ) : ℝ) * Real.log 100) := by
      rw [Real.rpow_def_of_pos (by norm_num)]
      ring_nf
    have hexp : ((1/1000000000 : ℚ) : ℝ) * Real.log 100 + 1
        < Real.exp (((1/1000000000 : ℚ) : ℝ) * Real.log 100) :=
      Real.add_one_lt_exp (by positivity)
    have hyc : Real.log 100
        < ((100:ℝ) ^ (((1/1000000000 : ℚ)) : ℝ) - 1) / (((1/1000000000 : ℚ)) : ℝ) := by
      rw [lt_div_iff₀ hlam, hpow]
      nlinarith
    calc (100:ℝ) = Real.exp (Real.log 100) := (Real.exp_log (by norm_num)).symm
      _ < Real.exp _ := Real.exp_lt_exp.mpr hyc

/-- C7 as amended. The forward transform composed with the inverse at the
stored parameters is the exact identity on positive inputs for the none
and log kinds, and for box-cox whenever the fitted lambda has absolute
value at most 3 and is either exactly 0 or at least 1e-8 in absolute value
(the inverse's lambda-near-zero log branch exactly inverts only the
lambda-0 logarithm; the extreme-lambda fallback and tiny nonzero lambdas
do not round-trip, per the counterexample). -/
theorem C7_transform_round_trip (lam off : ℚ) (x y z : ℝ) :
    (TransformValue "none" lam off x y →
      InverseValue (storedParams "none" lam off) y z → z = x) ∧
    (0 < x → TransformValue "log" lam off x y →
      InverseValue (storedParams "log" lam off) y z → z = x) ∧
    ((0:ℝ) < x + (off : ℝ) → |lam| ≤ 3 → (lam = 0 ∨ 1/100000000 ≤ |lam|) →
      TransformValue "box-cox" lam off x y →
      InverseValue (storedParams "box-cox" lam off) y z → z = x) := by
  refine ⟨?_, ?_, ?_⟩
  · intro ht hi
    rw [TransformValue] at ht
    norm_num at ht
    rw [show storedParams "none" lam off = TransformParams.none from rfl,
      InverseValue] at hi
    rw [hi, ht]
  · intro hx ht hi
    rw [TransformValue] at ht
    norm_num at ht
    rw [show storedParams "log" lam off = TransformParams.log 1 from rfl,
      InverseValue] at hi
    rw [hi, ht, Real.exp_log (by linarith)]
    ring
  · intro hpos hlam3 hlam ht hi
    rw [TransformValue, if_pos rfl, if_pos hlam3] at ht
    rw [storedParams_boxcox_eq, if_pos hlam3, InverseValue] at hi
    by_cases h0 : lam = 0
    · rw [if_pos h0] at ht
      rw [if_pos (by rw [h0]; norm_num)] at hi
      rw [hi, ht, Real.exp_log hpos]
      ring
    · have hlam8 : 1/100000000 ≤ |lam| := hlam.resolve_left h0
      have hlamR : ((lam : ℚ) : ℝ) ≠ 0 := by
        exact_mod_cast h0
      rw [if_neg h0] at ht
      rw [if_neg (by intro hcon; linarith [hcon, hlam8])] at hi
      rw [hi, ht]
      rw [mul_comm ((lam : ℚ) : ℝ) _, div_mul_cancel₀ _ hlamR, sub_add_cancel,
        ← Real.rpow_mul (le_of_lt hpos), mul_one_div_cancel hlamR, Real.rpow_one]
      ring

/-- C7 witness for the amended box-cox round trip at lambda 1, offset 0,
input 2: the forward value is 1 and the inverse recovers 2. -/
theorem C7_transform_round_trip_witness :
    TransformValue "box-cox" 1 0 2 1 ∧
      InverseValue (storedParams "box-cox" 1 0) 1 2 ∧ (2:ℝ) = 2 := by
  have ht : TransformValue "box-cox" 1 0 2 1 := by
    rw [TransformValue, if_pos rfl, if_pos (by norm_num), if_neg (by norm_num)]
    push_cast
    rw [Real.rpow_one]
    norm_num
  have hi : InverseValue (storedParams "box-cox" 1 0) 1 2 := by
    rw [storedParams_boxcox_eq, if_pos (by norm_num), InverseValue,
      if_neg (by rw [abs_of_pos (by norm_num)]; norm_num)]
    push_cast
    rw [show ((1:ℝ)/1) = 1 by norm_num, Real.rpow_one]
    norm_num
  exact ⟨ht, hi,
    (C7_transform_round_trip 1 0 2 1 2).2.2 (by norm_num) (by norm_num)
      (Or.inr (by rw [abs_of_pos (by norm_num)]; norm_num)) ht hi⟩

end KrinoSeq
